import Mathlib

/-!
# Verification of the AI Study Tutor server core (`src/server.js`)

Shallow embedding of the generation core of `server.js`:

* `callAI` — the provider-fallback client (lines 22–99), modelled as a pure
  function of the static model list and an oracle `resp : Nat → Attempt`
  giving the result of the i-th network attempt.  The returned trace lists
  the indices of the models that were attempted, in order.
* the `/api/summarize` handler's truncation and summary-cleaning logic
  (lines 107–156).
* the `/api/generateQuiz` handler's input selection, payload isolation,
  Stage-2 field-level recovery and record validation (lines 168–336).

JavaScript strings are modelled as Lean `String`s over their character
lists (the sources are ASCII, so UTF-16 code-unit indices coincide with
character indices).
-/

namespace StudyTutor

/-- JavaScript whitespace as relevant here (`\s`, ASCII fragment). -/
def jsWs (c : Char) : Bool :=
  c = ' ' || c = '\t' || c = '\n' || c = '\r'

/-- `String.prototype.trim` on character lists. -/
def trimChars (l : List Char) : List Char :=
  ((l.dropWhile jsWs).reverse.dropWhile jsWs).reverse

/-- `String.prototype.trim`. -/
def jsTrim (s : String) : String :=
  String.mk (trimChars s.data)

/-- JS truthiness of an optional string field (`undefined` and `""` are falsy). -/
def jsTruthy : Option String → Bool
  | none => false
  | some s => !(s = "")

/-- JS `a || b` on optional string fields. -/
def jsOr (a b : Option String) : Option String :=
  if jsTruthy a then a else b

/-- First index of a character in a list (`String.prototype.indexOf`). -/
def idxOf (l : List Char) (c : Char) : Option Nat :=
  match l with
  | [] => none
  | x :: xs => if x = c then some 0 else (idxOf xs c).map (· + 1)

/-- Last index of a character in a list (`String.prototype.lastIndexOf`). -/
def lastIdxOf (l : List Char) (c : Char) : Option Nat :=
  match l with
  | [] => none
  | x :: xs =>
      match lastIdxOf xs c with
      | some i => some (i + 1)
      | none => if x = c then some 0 else none

/-! ## The provider-fallback client `callAI` (server.js lines 22–99) -/

/-- The static list of free models tried in order (lines 24–30). -/
def freeModels : List String :=
  [ "meta-llama/llama-3.2-3b-instruct:free",
    "microsoft/phi-3-mini-128k-instruct:free",
    "google/gemma-2-9b-it:free",
    "huggingface/zephyr-7b-beta:free",
    "openchat/openchat-7b:free" ]

/-- What one `fetch` + `response.json()` attempt yields: either a transport
exception, or a response with an HTTP status, the usable content
`data.choices[0].message.content` when present, and the error message the
code would derive from the body (`data?.error?.message || ...`). -/
inductive Attempt where
  | netErr (msg : String)
  | resp (status : Nat) (content : Option String) (errMsg : String)
  deriving DecidableEq

/-- `response.ok` for node-fetch: status in 200–299. -/
def httpOk (st : Nat) : Bool := 200 ≤ st && st ≤ 299

/-- Per-attempt classification, following the body of the loop (lines 55–82):
`skip` is a `continue`, `err` is a thrown error (routed through the `catch`),
`success` is the `return` of the content. -/
inductive StepResult where
  | success (text : String)
  | skip
  | err (msg : String)
  deriving DecidableEq

/-- Classify one attempt exactly as lines 55–82 do. -/
def stepOf (a : Attempt) : StepResult :=
  match a with
  | .netErr m => .err m
  | .resp st content errMsg =>
      if st = 429 then .skip
      else if !httpOk st then
        (if 500 ≤ st || st = 503 then .skip
         else .err ("API Error (" ++ toString st ++ "): " ++ errMsg))
      else
        match content with
        | none => .skip
        | some c => .success c

/-- Outcome of a `callAI` invocation: the returned content and model, or a
thrown error with its message. -/
inductive CallOutcome where
  | ok (text : String) (model : String)
  | error (msg : String)
  deriving DecidableEq

/-- The fallback loop (lines 34–98) over the remaining `(index, model)`
pairs.  A thrown error (`StepResult.err`) is caught; the code re-throws it
wrapped only when the attempt was on the last model (lines 84–95).  When the
loop exhausts all models it throws `"All available models are currently
unavailable"` (line 98).  The second component records the indices of the
attempted models, in order. -/
def callAIGo (resp : Nat → Attempt) : List (Nat × String) → CallOutcome × List Nat
  | [] => (.error "All available models are currently unavailable", [])
  | (i, m) :: rest =>
      match stepOf (resp i) with
      | .success c => (.ok c m, [i])
      | .skip =>
          let r := callAIGo resp rest
          (r.1, i :: r.2)
      | .err msg =>
          if rest.isEmpty then
            (.error ("All models failed. Last error: " ++ msg), [i])
          else
            let r := callAIGo resp rest
            (r.1, i :: r.2)

/-- `callAI` (lines 22–99): walk the models in their static order. -/
def callAI (models : List String) (resp : Nat → Attempt) : CallOutcome × List Nat :=
  callAIGo resp models.enum

/-! ## The `/api/summarize` handler (lines 107–156) -/

/-- Line 119: `content.length > 3000 ? content.substring(0, 3000) + "..." : content`. -/
def truncateForSummary (content : String) : String :=
  if content.length > 3000 then String.mk (content.data.take 3000) ++ "..." else content

/-- One intro-phrase regex: either a literal phrase, or a phrase with a
`\d+` hole (the first pattern of lines 137–145).  Every pattern is anchored
at the start (`^`), matched case-insensitively, and followed by `\s*`. -/
inductive IntroPattern where
  | lit (phrase : String)
  | litNum (pre post : String)

/-- The ordered pattern list of lines 136–146. -/
def introPatterns : List IntroPattern :=
  [ .litNum "Here's a summary of the text in " " words or less that a student can understand:",
    .lit "Here's a summary of the text:",
    .lit "Here's a concise summary:",
    .lit "Summary:",
    .lit "Here is a summary:",
    .lit "The text can be summarized as follows:",
    .lit "This text discusses:",
    .lit "The following is a summary:",
    .lit "Below is a summary:" ]

/-- Case-insensitive prefix match: returns the remainder after the prefix. -/
def ciPrefixRest : List Char → List Char → Option (List Char)
  | [], l => some l
  | _ :: _, [] => none
  | p :: ps, c :: cs => if p.toLower = c.toLower then ciPrefixRest ps cs else none

/-- Match an intro pattern (phrase part only) at the start of the text,
returning the remainder. -/
def matchIntro (pat : IntroPattern) (l : List Char) : Option (List Char) :=
  match pat with
  | .lit s => ciPrefixRest s.data l
  | .litNum pre post =>
      match ciPrefixRest pre.data l with
      | none => none
      | some r =>
          if (r.takeWhile Char.isDigit).isEmpty then none
          else ciPrefixRest post.data (r.dropWhile Char.isDigit)

/-- `summary.replace(pattern, '')` for one anchored pattern `^phrase\s*`:
if the phrase matches at the start, drop it and the following whitespace. -/
def applyIntro (pat : IntroPattern) (l : List Char) : List Char :=
  match matchIntro pat l with
  | some r => r.dropWhile jsWs
  | none => l

/-- The clean-up of lines 133–153: trim, apply each pattern once in order,
trim again. -/
def cleanSummary (s : String) : String :=
  String.mk (trimChars (introPatterns.foldl (fun acc p => applyIntro p acc) (trimChars s.data)))

/-- Whether an intro pattern matches at the start of the text. -/
def matchesAtStart (pat : IntroPattern) (l : List Char) : Bool :=
  (matchIntro pat l).isSome

/-! ## The `/api/generateQuiz` handler: input phase (lines 168–181) -/

/-- The fields destructured from the request body on line 170 (`count`
defaults to 5 when absent; a JSON integer is modelled as `Int`). -/
structure QuizRequest where
  summary : Option String
  content : Option String
  count : Int
  difficulty : String

/-- Line 171: `const sourceText = content || summary`. -/
def quizSourceText (req : QuizRequest) : Option String :=
  jsOr req.content req.summary

/-- Lines 170–181: the checks performed before any provider is contacted.
`.ok` means control reaches the `callAI` call of line 189. -/
def generateQuizPhase1 (req : QuizRequest) (hasApiKey : Bool) : Except String String :=
  let sourceText := quizSourceText req
  if !jsTruthy sourceText then .error "No content or summary provided"
  else if !hasApiKey then .error "API key not configured"
  else .ok (sourceText.getD "")

/-- Line 181: `sourceText.length > 2000 ? sourceText.substring(0, 2000) + "..." : sourceText`. -/
def truncateForQuiz (sourceText : String) : String :=
  if sourceText.length > 2000 then String.mk (sourceText.data.take 2000) ++ "..." else sourceText

/-- Line 216: `Math.max(1200, count * 250)`. -/
def quizMaxTokens (count : Int) : Int := max 1200 (count * 250)

/-- Which provider attempts a request triggers: none when the input phase
errors out, otherwise exactly the attempts `callAI` makes. -/
def generateQuizAttempts (req : QuizRequest) (hasApiKey : Bool)
    (resp : Nat → Attempt) : List Nat :=
  match generateQuizPhase1 req hasApiKey with
  | .error _ => []
  | .ok _ => (callAI freeModels resp).2

/-! ## Payload isolation (lines 221–238) -/

/-- `String.prototype.includes` for a fixed substring. -/
def containsSub (sub : List Char) : List Char → Bool
  | [] => sub.isEmpty
  | c :: cs => sub.isPrefixOf (c :: cs) || containsSub sub cs

/-- Length of the match of `` /```json\s*|\s*```/ `` at the head of the
text, if any.  The first alternative is tried first; in the second, the
greedy `\s*` only succeeds with the maximal whitespace run (backtracked
positions would need a backquote where a whitespace character stands). -/
def fenceMatchLen (l : List Char) : Option Nat :=
  if "```json".data.isPrefixOf l then
    some (7 + ((l.drop 7).takeWhile jsWs).length)
  else
    let k := (l.takeWhile jsWs).length
    if "```".data.isPrefixOf (l.drop k) then some (k + 3) else none

/-- Global replacement of `` /```json\s*|\s*```/g `` by the empty string:
leftmost matches are removed, scanning resumes after each match.  Fuelled
by the text length; every match consumes at least one character, so the
fuel never runs out on the initial call. -/
def stripFencesGo : Nat → List Char → List Char
  | 0, l => l
  | _ + 1, [] => []
  | f + 1, c :: cs =>
      match fenceMatchLen (c :: cs) with
      | some n => stripFencesGo f ((c :: cs).drop n)
      | none => c :: stripFencesGo f cs

/-- `cleaned.replace(/```json\s*|\s*```/g, '')` (line 225). -/
def stripFences (l : List Char) : List Char := stripFencesGo l.length l

/-- Lines 221–227: trim, and if the text contains a code-fence marker,
remove the fence markers and trim again. -/
def fenceClean (raw : String) : String :=
  let cleaned := jsTrim raw
  if containsSub "```".data cleaned.data then jsTrim (String.mk (stripFences cleaned.data))
  else cleaned

/-- The failure condition of line 233: no `[`, or `lastIndexOf(']') + 1`
not beyond the first `[` (a missing `]` gives `arrayEnd = 0`). -/
def noBracketPair (s : String) : Bool :=
  match idxOf s.data '[' with
  | none => true
  | some st =>
      let e := match lastIdxOf s.data ']' with | none => 0 | some l => l + 1
      decide (e ≤ st)

/-- Lines 221–238: isolate the bracketed payload.  `none` models the
`throw new Error("No valid JSON array found in response")` of line 235. -/
def isolatePayload (raw : String) : Option String :=
  let cleaned := fenceClean raw
  match idxOf cleaned.data '[' with
  | none => none
  | some st =>
      let e := match lastIdxOf cleaned.data ']' with | none => 0 | some l => l + 1
      if e ≤ st then none
      else some (String.mk ((cleaned.data.drop st).take (e - st)))

/-! ## Record validation (lines 314–333) -/

/-- A loosely-typed record as it comes out of parsing: `none` models a field
that is absent or has the wrong JS type for the corresponding check. -/
structure RawQ where
  question : Option String
  options : Option (List String)
  correctIndex : Option Int
  hint : Option String
  explanation : Option String
  deriving DecidableEq

/-- The validity predicate of lines 316–323. -/
def isValidQ (q : RawQ) : Bool :=
  (match q.question with
   | some s => decide (0 < (jsTrim s).length)
   | none => false)
  && (match q.options with
      | some os => decide (2 ≤ os.length)
      | none => false)
  && (match q.correctIndex, q.options with
      | some ci, some os => decide (0 ≤ ci) && decide (ci < (os.length : Int))
      | _, _ => false)

/-- `l.slice(0, e)` for a possibly negative JS end index. -/
def jsSliceEnd (l : List RawQ) (e : Int) : List RawQ :=
  if 0 ≤ e then l.take e.toNat else l.take (l.length - min l.length e.natAbs)

/-- Lines 315–329: filter by validity, then
`.slice(0, parseInt(count) || 5)` (a zero count falls back to 5). -/
def validateQuiz (qs : List RawQ) (count : Int) : List RawQ :=
  jsSliceEnd (qs.filter isValidQ) (if count = 0 then 5 else count)

/-- Lines 315–333: validation followed by the empty-result check, which
throws `"No valid questions were generated. ..."` (line 332). -/
def finishQuiz (qs : List RawQ) (count : Int) : Except String (List RawQ) :=
  let v := validateQuiz qs count
  if v.isEmpty then
    .error "No valid questions were generated. Please try with shorter content or fewer questions."
  else .ok v

/-! ## Stage-2 field-level recovery (lines 252–309) -/

/-- Case-sensitive literal prefix, returning the remainder. -/
def litPrefixRest (pre l : List Char) : Option (List Char) :=
  if pre.isPrefixOf l then some (l.drop pre.length) else none

/-- Match `/"question"\s*:\s*"([^"]+)"/` at the head of the text, returning
the capture and the remainder after the whole match. -/
def matchQuestionAt (l : List Char) : Option (List Char × List Char) :=
  match litPrefixRest "\"question\"".data l with
  | none => none
  | some r0 =>
      match r0.dropWhile jsWs with
      | ':' :: r2 =>
          match r2.dropWhile jsWs with
          | '"' :: r4 =>
              let cap := r4.takeWhile (fun c => c != '"')
              if cap.isEmpty then none
              else
                match r4.drop cap.length with
                | '"' :: r5 => some (cap, r5)
                | _ => none
          | _ => none
      | _ => none

/-- Match `/"options"\s*:\s*\[([^\]]+)\]/` at the head of the text. -/
def matchOptionsAt (l : List Char) : Option (List Char × List Char) :=
  match litPrefixRest "\"options\"".data l with
  | none => none
  | some r0 =>
      match r0.dropWhile jsWs with
      | ':' :: r2 =>
          match r2.dropWhile jsWs with
          | '[' :: r4 =>
              let cap := r4.takeWhile (fun c => c != ']')
              if cap.isEmpty then none
              else
                match r4.drop cap.length with
                | ']' :: r5 => some (cap, r5)
                | _ => none
          | _ => none
      | _ => none

/-- Match `/"correctIndex"\s*:\s*(\d+)/` at the head of the text. -/
def matchCorrectAt (l : List Char) : Option (List Char × List Char) :=
  match litPrefixRest "\"correctIndex\"".data l with
  | none => none
  | some r0 =>
      match r0.dropWhile jsWs with
      | ':' :: r2 =>
          let r3 := r2.dropWhile jsWs
          let cap := r3.takeWhile Char.isDigit
          if cap.isEmpty then none else some (cap, r3.drop cap.length)
      | _ => none

/-- The `while ((m = pattern.exec(text)) !== null)` loop: collect all
non-overlapping leftmost matches, resuming after each match.  Fuelled by
the text length; every match consumes at least one character. -/
def scanPattern (m : List Char → Option (List Char × List Char)) :
    Nat → List Char → List (List Char)
  | 0, _ => []
  | _ + 1, [] => []
  | f + 1, c :: cs =>
      match m (c :: cs) with
      | some (cap, rest) => cap :: scanPattern m f rest
      | none => scanPattern m f cs

/-- `parseInt` on a non-empty digit capture. -/
def digitsToNat (l : List Char) : Nat :=
  l.foldl (fun n c => n * 10 + (c.toNat - 48)) 0

/-- Parse one double-quoted string (no escape sequences — the option texts
the recovery path handles contain none) and return the remainder. -/
def parseOneString (l : List Char) : Option (String × List Char) :=
  match l.dropWhile jsWs with
  | '"' :: r =>
      let cap := r.takeWhile (fun c => c != '"')
      match r.drop cap.length with
      | '"' :: r2 => some (String.mk cap, r2)
      | _ => none
  | _ => none

/-- Comma-separated double-quoted strings, to the end of the text. -/
def parseStringsGo : Nat → List Char → Option (List String)
  | 0, _ => none
  | f + 1, l =>
      match parseOneString l with
      | none => none
      | some (s, rest) =>
          match rest.dropWhile jsWs with
          | [] => some [s]
          | ',' :: r2 =>
              match parseStringsGo f r2 with
              | some ss => some (s :: ss)
              | none => none
          | _ => none

/-- `JSON.parse('[' + inner + ']')` (line 272–273), for the string arrays
the recovery path handles: a whitespace-only interior is the empty array,
otherwise a comma-separated list of double-quoted strings. -/
def jsonParseStringArray (inner : List Char) : Option (List String) :=
  if (inner.dropWhile jsWs).isEmpty then some []
  else parseStringsGo (inner.length + 1) inner

/-- Line 277: the placeholder substituted when an options interior fails to
parse. -/
def placeholderOptions : List String :=
  ["Option A", "Option B", "Option C", "Option D"]

/-- Lines 262–266: all `question` captures, in document order. -/
def extractQuestionTexts (payload : List Char) : List String :=
  (scanPattern matchQuestionAt payload.length payload).map String.mk

/-- Lines 268–279: all `options` captures, each parsed or replaced by the
placeholder list. -/
def extractOptionLists (payload : List Char) : List (List String) :=
  (scanPattern matchOptionsAt payload.length payload).map
    fun inner => (jsonParseStringArray inner).getD placeholderOptions

/-- Lines 281–285: all `correctIndex` captures, as numbers. -/
def extractCorrectIndices (payload : List Char) : List Nat :=
  (scanPattern matchCorrectAt payload.length payload).map digitsToNat

/-- Lines 290–296: one reassembled record, with the fixed hint and
explanation texts. -/
def buildRecovered (q : String) (os : List String) (ci : Nat) : RawQ :=
  ⟨some q, some os, some (ci : Int), some "Review the material carefully",
   some "This is the correct answer based on the content."⟩

/-- Lines 287–297: positional reassembly of the extracted field sequences;
the loop runs to `Math.min` of the three match counts, which the zip
realizes. -/
def stage2Records (payload : String) : List RawQ :=
  let qts := extractQuestionTexts payload.data
  let opts := extractOptionLists payload.data
  let cis := extractCorrectIndices payload.data
  (qts.zip (opts.zip cis)).map fun x => buildRecovered x.1 x.2.1 x.2.2

/-- Lines 299–309: Stage 2 succeeds iff it reassembled at least one record;
otherwise the parser fails (`"Fallback parsing also failed"`, surfaced as
`Failed to parse quiz response: ...`). -/
def stage2 (payload : String) : Except String (List RawQ) :=
  let questions := stage2Records payload
  if questions.length > 0 then .ok questions
  else .error "Fallback parsing also failed"

/-- A payload on which each Stage-2 field pattern matches twice (a strict
decode of the whole text would fail: it is not a bracketed array). -/
def recoveryPayloadExample : String :=
  "\"question\": \"Q1?\", \"options\": [\"A\", \"B\"], \"correctIndex\": 1, " ++
    "\"question\": \"Q2?\", \"options\": [\"C\", \"D\"], \"correctIndex\": 0"

/-! ## Helper lemmas -/

/-- A response whose status is 429 or 5xx (the transient classes). -/
def isTransientResp (a : Attempt) : Prop :=
  ∃ st c e, a = .resp st c e ∧ (st = 429 ∨ (500 ≤ st ∧ st ≤ 599))

theorem stepOf_transient (a : Attempt) (h : isTransientResp a) : stepOf a = .skip := by
  obtain ⟨st, c, e, rfl, hst⟩ := h
  rcases hst with h429 | ⟨h5, _⟩
  · subst h429; rfl
  · have h1 : ¬st = 429 := by omega
    have h2 : httpOk st = false := by
      have : ¬st ≤ 299 := by omega
      simp [httpOk, this]
    have h3 : (500 ≤ st) := h5
    simp [stepOf, h1, h2, h3]

theorem callAIGo_all_skip (resp : Nat → Attempt) (l : List (Nat × String))
    (h : ∀ p ∈ l, stepOf (resp p.1) = .skip) :
    callAIGo resp l =
      (.error "All available models are currently unavailable", l.map Prod.fst) := by
  induction l with
  | nil => rfl
  | cons p rest ih =>
      obtain ⟨i, m⟩ := p
      have hi := h (i, m) (by simp)
      simp only [callAIGo, hi, ih fun q hq => h q (by simp [hq]), List.map_cons]

theorem callAIGo_head (resp : Nat → Attempt) (i : Nat) (m : String)
    (rest : List (Nat × String)) :
    (callAIGo resp ((i, m) :: rest)).2.head? = some i := by
  cases h : stepOf (resp i) <;> simp [callAIGo, h]
  split <;> simp

theorem callAIGo_trace_prefix (resp : Nat → Attempt) (l : List (Nat × String)) :
    (callAIGo resp l).2 <+: l.map Prod.fst := by
  induction l with
  | nil => exact ⟨[], rfl⟩
  | cons p rest ih =>
      obtain ⟨i, m⟩ := p
      cases h : stepOf (resp i) with
      | success c => exact ⟨rest.map Prod.fst, by simp [callAIGo, h]⟩
      | skip =>
          obtain ⟨w, hw⟩ := ih
          exact ⟨w, by simp [callAIGo, h, ← hw]⟩
      | err msg =>
          by_cases hr : rest.isEmpty
          · refine ⟨rest.map Prod.fst, ?_⟩
            simp [callAIGo, h, hr]
          · obtain ⟨w, hw⟩ := ih
            refine ⟨w, ?_⟩
            simp [callAIGo, h, hr, ← hw]

theorem idxOf_get (c : Char) (l : List Char) :
    ∀ i, idxOf l c = some i → l[i]? = some c := by
  induction l with
  | nil => intro i h; simp [idxOf] at h
  | cons x xs ih =>
      intro i h
      by_cases hx : x = c
      · simp [idxOf, hx] at h
        simp [← h, hx]
      · simp [idxOf, hx] at h
        obtain ⟨j, hj, rfl⟩ := h
        simpa using ih j hj

theorem lastIdxOf_get (c : Char) (l : List Char) :
    ∀ i, lastIdxOf l c = some i → l[i]? = some c := by
  induction l with
  | nil => intro i h; simp [lastIdxOf] at h
  | cons x xs ih =>
      intro i h
      rw [lastIdxOf] at h
      cases h' : lastIdxOf xs c with
      | some j =>
          rw [h'] at h
          obtain rfl : j + 1 = i := by simpa using h
          simpa using ih j h'
      | none =>
          rw [h'] at h
          by_cases hx : x = c
          · simp [hx] at h
            simp [← h, hx]
          · simp [hx] at h

/-! ## Claim theorems -/

/-- C3: when every provider attempt yields a transient status (429 or 5xx),
`callAI` throws `"All available models are currently unavailable"` (the
all-providers-exhausted failure) and the trace shows every candidate was
attempted exactly once, in the static priority order 0,1,2,3,4. -/
theorem callAI_allTransient_exhausted (resp : Nat → Attempt)
    (h : ∀ i < freeModels.length, isTransientResp (resp i)) :
    callAI freeModels resp =
      (.error "All available models are currently unavailable", [0, 1, 2, 3, 4]) := by
  have hall : ∀ p ∈ freeModels.enum, stepOf (resp p.1) = .skip := by
    intro p hp
    have hlt : p.1 < freeModels.length := by fin_cases hp <;> simp [freeModels]
    exact stepOf_transient _ (h p.1 hlt)
  rw [callAI, callAIGo_all_skip resp _ hall]
  rfl

/-- C3 witness: with every attempt answered 429, all five models are tried
in order and the exhausted error is thrown. -/
theorem callAI_allTransient_exhausted_witness :
    callAI freeModels (fun _ => .resp 429 none "") =
      (.error "All available models are currently unavailable", [0, 1, 2, 3, 4]) :=
  callAI_allTransient_exhausted _ (fun _ _ => ⟨429, none, "", rfl, Or.inl rfl⟩)

/-- C1 counterexample: the first provider answers 401 (a "fatal" status by
the claim's classification), yet the client does not abort — it attempts the
second candidate (trace `[0, 1]`) and returns its success, instead of
returning a fatal failure without attempting any remaining candidate. -/
theorem callAI_fatal_no_abort_counterexample :
    callAI freeModels
        (fun i => if i = 0 then .resp 401 none "Unauthorized" else .resp 200 (some "Hello") "")
      = (.ok "Hello" "microsoft/phi-3-mini-128k-instruct:free", [0, 1]) := by decide

/-- C1 amended: a non-success status other than 429 and 5xx/503 makes the
attempt throw `API Error (status): message`, but the surrounding `catch`
swallows it: the client continues with the next candidate, and only when
the attempt was on the last candidate is the failure surfaced, wrapped as
`All models failed. Last error: ...`. -/
theorem callAI_fatalStatus_caught (resp : Nat → Attempt) (i : Nat) (m : String)
    (rest : List (Nat × String)) (st : Nat) (c : Option String) (e : String)
    (hresp : resp i = .resp st c e)
    (h429 : ¬st = 429) (hok : httpOk st = false) (h5 : st < 500) (h503 : ¬st = 503) :
    callAIGo resp ((i, m) :: rest) =
      if rest.isEmpty then
        (.error ("All models failed. Last error: API Error (" ++ toString st ++ "): " ++ e),
         [i])
      else ((callAIGo resp rest).1, i :: (callAIGo resp rest).2) := by
  have h5' : ¬500 ≤ st := by omega
  have hstep : stepOf (resp i) = .err ("API Error (" ++ toString st ++ "): " ++ e) := by
    rw [hresp]
    simp [stepOf, h429, hok, h5', h503]
  simp only [callAIGo, hstep]
  split <;> rfl

/-- C1 amended witness: a single remaining candidate answering 401 yields
the wrapped failure with that candidate in the trace. -/
theorem callAI_fatalStatus_caught_witness :
    callAIGo (fun _ => .resp 401 none "Unauthorized")
        [(0, "meta-llama/llama-3.2-3b-instruct:free")] =
      (.error "All models failed. Last error: API Error (401): Unauthorized", [0]) := by
  have h := callAI_fatalStatus_caught (fun _ => .resp 401 none "Unauthorized") 0
    "meta-llama/llama-3.2-3b-instruct:free" [] 401 none "Unauthorized" rfl
    (by decide) (by decide) (by decide) (by decide)
  simpa using h

/-- C2 counterexample: a call that succeeds through the second candidate
(`microsoft/phi-3-mini-128k-instruct:free`, index 1) does not bias the next
call: with a fresh oracle the next call's attempt order again begins with
index 0 (`[0, 1, 2, 3, 4]` here), not with the previously successful
provider — `callAI` keeps no hint at all. -/
theorem callAI_no_hint_counterexample :
    callAI freeModels
        (fun i => if i = 0 then .resp 429 none "" else .resp 200 (some "Hi") "")
      = (.ok "Hi" "microsoft/phi-3-mini-128k-instruct:free", [0, 1])
    ∧ (callAI freeModels (fun r => .resp 429 none (toString r))).2 = [0, 1, 2, 3, 4] := by
  constructor <;> decide

/-- C2 amended: the client is stateless — there is no provider hint, and
every call attempts candidates in the fixed static order: the trace always
begins with index 0 and is an initial segment of `[0, 1, 2, 3, 4]`,
regardless of which provider succeeded in any earlier call. -/
theorem callAI_static_order (resp : Nat → Attempt) :
    (callAI freeModels resp).2.head? = some 0 ∧
    List.IsPrefix (callAI freeModels resp).2 [0, 1, 2, 3, 4] := by
  constructor
  · have h : freeModels.enum =
        (0, "meta-llama/llama-3.2-3b-instruct:free") ::
          [(1, "microsoft/phi-3-mini-128k-instruct:free"),
           (2, "google/gemma-2-9b-it:free"),
           (3, "huggingface/zephyr-7b-beta:free"),
           (4, "openchat/openchat-7b:free")] := by decide
    rw [callAI, h]
    exact callAIGo_head resp 0 _ _
  · have h := callAIGo_trace_prefix resp freeModels.enum
    have hmap : freeModels.enum.map Prod.fst = [0, 1, 2, 3, 4] := by decide
    rw [callAI]
    rw [hmap] at h
    exact h

/-- C4 counterexample: on a raw response with no bracket pair the code does
not return the trimmed original text — it throws
`"No valid JSON array found in response"` (modelled as `none`). -/
theorem isolatePayload_throws_counterexample :
    isolatePayload "hello" = none ∧ jsTrim "hello" = "hello" := by
  constructor <;> decide

/-- C4 amended: payload isolation is not total — when the (possibly
fence-stripped, trimmed) text has no opening bracket followed by a later
closing bracket, the handler throws instead of returning the trimmed text;
when such a pair exists it returns the inclusive bracketed substring
(starting with `[` and ending with `]`). -/
theorem isolatePayload_spec (raw : String) :
    (noBracketPair (fenceClean raw) = true → isolatePayload raw = none) ∧
    (noBracketPair (fenceClean raw) = false →
      ∃ out, isolatePayload raw = some out ∧ out.data.head? = some '[' ∧
        out.data[out.data.length - 1]? = some ']') := by
  rw [noBracketPair, isolatePayload]
  cases hidx : idxOf (fenceClean raw).data '[' with
  | none => exact ⟨fun _ => rfl, fun h => by simp at h⟩
  | some st =>
      cases hlast : lastIdxOf (fenceClean raw).data ']' with
      | none =>
          refine ⟨fun _ => ?_, fun h => ?_⟩
          · have : 0 ≤ st := Nat.zero_le st
            simp [this]
          · simp at h
      | some le =>
          by_cases hle : le + 1 ≤ st
          · exact ⟨fun _ => by simp [hle], fun h => by simp [hle] at h⟩
          · refine ⟨fun h => by simp [hle] at h, fun _ => ?_⟩
            have hst : (fenceClean raw).data[st]? = some '[' := idxOf_get _ _ _ hidx
            have hle' : (fenceClean raw).data[le]? = some ']' := lastIdxOf_get _ _ _ hlast
            have hstlt : st < (fenceClean raw).data.length :=
              (List.getElem?_eq_some_iff.mp hst).1
            have hlelt : le < (fenceClean raw).data.length :=
              (List.getElem?_eq_some_iff.mp hle').1
            have hstle : st ≤ le := by omega
            refine ⟨String.mk (((fenceClean raw).data.drop st).take (le + 1 - st)),
              by simp [hle], ?_, ?_⟩
            · rw [List.head?_eq_getElem?,
                List.getElem?_take_of_lt (by omega : 0 < le + 1 - st),
                List.getElem?_drop]
              simpa using hst
            · have hlen : (((fenceClean raw).data.drop st).take (le + 1 - st)).length
                  = le + 1 - st := by
                rw [List.length_take, List.length_drop]
                omega
              rw [hlen]
              have : le + 1 - st - 1 < le + 1 - st := by omega
              rw [List.getElem?_take_of_lt this, List.getElem?_drop]
              have : st + (le + 1 - st - 1) = le := by omega
              rw [this]
              exact hle'

/-- C4 amended witness: a bracket-free text throws; a text with a bracket
pair yields the bracketed substring. -/
theorem isolatePayload_spec_witness :
    isolatePayload "no brackets here" = none ∧
    (∃ out, isolatePayload "x [1] y" = some out ∧ out.data.head? = some '[' ∧
      out.data[out.data.length - 1]? = some ']') :=
  ⟨(isolatePayload_spec "no brackets here").1 (by decide),
   (isolatePayload_spec "x [1] y").2 (by decide)⟩

/-- C5 counterexample: the validator's question check is trimmed length > 0,
not > 5 — the record with question `"abc"` (trimmed length 3) is kept and
returned, where the claim says it must be dropped (and, being the only
record, would have made the operation fail). -/
theorem validateQuiz_shortQuestion_counterexample :
    isValidQ ⟨some "abc", some ["A", "B"], some 0, none, none⟩ = true ∧
    finishQuiz [⟨some "abc", some ["A", "B"], some 0, none, none⟩] 5 =
      .ok [⟨some "abc", some ["A", "B"], some 0, none, none⟩] ∧
    ¬5 < (jsTrim "abc").length :=
  ⟨by decide, by rfl, by decide⟩

/-- C5 amended: the validator keeps a record iff its question is text whose
trimmed length is positive (non-empty — not `> 5`), its options are a
sequence of length ≥ 2, and its correctIndex is a number with
`0 ≤ correctIndex < len(options)`; kept records preserve input order
(output is a sublist) and are truncated to at most the requested count, and
the whole operation fails with the no-valid-questions error iff no record
survives the filter. -/
theorem validateQuiz_spec (qs : List RawQ) (count : Int) (hc : 0 < count) :
    (validateQuiz qs count).length ≤ count.toNat ∧
    (validateQuiz qs count).Sublist qs ∧
    (∀ q ∈ validateQuiz qs count, isValidQ q = true) ∧
    (∀ q : RawQ, isValidQ q = true ↔
      ((∃ s, q.question = some s ∧ 0 < (jsTrim s).length) ∧
       (∃ os, q.options = some os ∧ 2 ≤ os.length ∧
         ∃ ci, q.correctIndex = some ci ∧ 0 ≤ ci ∧ ci < (os.length : Int)))) ∧
    (finishQuiz qs count =
        .error "No valid questions were generated. Please try with shorter content or fewer questions."
      ↔ qs.filter isValidQ = []) := by
  have h0 : ¬count = 0 := by omega
  have heq : validateQuiz qs count = (qs.filter isValidQ).take count.toNat := by
    simp [validateQuiz, jsSliceEnd, h0, hc.le]
  have hn : count.toNat ≠ 0 := by omega
  refine ⟨?_, ?_, ?_, ?_, ?_⟩
  · rw [heq, List.length_take]
    exact min_le_left _ _
  · rw [heq]
    exact ((qs.filter isValidQ).take_sublist _).trans (List.filter_sublist qs)
  · intro q hq
    rw [heq] at hq
    exact (List.mem_filter.mp (List.mem_of_mem_take hq)).2
  · intro q
    rcases q with ⟨qq, qo, qc, qh, qe⟩
    rcases qq with _ | s <;> rcases qo with _ | os <;> rcases qc with _ | ci <;>
      (simp [isValidQ]; try tauto)
  · rw [finishQuiz]
    simp only [heq]
    constructor
    · intro h
      by_cases he : ((qs.filter isValidQ).take count.toNat).isEmpty
      · rw [List.isEmpty_iff] at he
        rcases List.take_eq_nil_iff.mp he with h' | h'
        · exact absurd h' hn
        · exact h'
      · simp [he] at h
    · intro h
      simp [h]

/-- C5 amended witness: a concrete valid record is kept in order. -/
theorem validateQuiz_spec_witness :
    (validateQuiz [⟨some "What is 2+2?", some ["3", "4"], some 1, none, none⟩] 3).Sublist
      [⟨some "What is 2+2?", some ["3", "4"], some 1, none, none⟩] :=
  (validateQuiz_spec _ 3 (by decide)).2.1

theorem dropWhile_head_false (p : Char → Bool) (l : List Char) (c : Char)
    (hc : (l.dropWhile p).head? = some c) : p c = false := by
  induction l with
  | nil => simp [List.dropWhile] at hc
  | cons x xs ih =>
      rw [List.dropWhile] at hc
      by_cases hx : p x
      · exact ih (by simpa [hx] using hc)
      · have : x = c := by simpa [hx] using hc
        subst this
        simpa using hx

theorem getLast?_dropWhile (p : Char → Bool) (l : List Char)
    (h : l.dropWhile p ≠ []) : (l.dropWhile p).getLast? = l.getLast? := by
  induction l with
  | nil => simp [List.dropWhile] at h
  | cons x xs ih =>
      rw [List.dropWhile_cons] at h ⊢
      by_cases hx : p x
      · rw [if_pos hx] at h ⊢
        have hxs : xs ≠ [] := by
          intro hnil
          exact h (by simp [hnil, List.dropWhile])
        rw [ih h]
        cases xs with
        | nil => exact absurd rfl hxs
        | cons y ys => rw [List.getLast?_cons_cons]
      · rw [if_neg hx]

theorem dropWhile_eq_self_of_head (p : Char → Bool) (l : List Char)
    (h : ∀ c, l.head? = some c → p c = false) : l.dropWhile p = l := by
  cases l with
  | nil => rfl
  | cons x xs =>
      rw [List.dropWhile_cons, if_neg]
      simp [h x rfl]

theorem trimChars_head_false (l : List Char) (c : Char)
    (hc : (trimChars l).head? = some c) : jsWs c = false := by
  rw [trimChars, List.head?_reverse] at hc
  have hne : (l.dropWhile jsWs).reverse.dropWhile jsWs ≠ [] := by
    intro hnil
    rw [hnil] at hc
    simp at hc
  rw [getLast?_dropWhile _ _ hne, List.getLast?_reverse] at hc
  exact dropWhile_head_false _ _ _ hc

theorem trimChars_last_false (l : List Char) (c : Char)
    (hc : (trimChars l).getLast? = some c) : jsWs c = false := by
  rw [trimChars, List.getLast?_reverse] at hc
  exact dropWhile_head_false _ _ _ hc

theorem trimChars_idem (l : List Char) : trimChars (trimChars l) = trimChars l := by
  have h1 : (trimChars l).dropWhile jsWs = trimChars l :=
    dropWhile_eq_self_of_head _ _ fun c hc => trimChars_head_false l c hc
  have h2 : (trimChars l).reverse.dropWhile jsWs = (trimChars l).reverse :=
    dropWhile_eq_self_of_head _ _ fun c hc =>
      trimChars_last_false l c (by rwa [List.head?_reverse] at hc)
  rw [trimChars, h1, h2, List.reverse_reverse]

theorem foldl_applyIntro_no_match (pats : List IntroPattern) (l : List Char)
    (h : ∀ p ∈ pats, matchesAtStart p l = false) :
    pats.foldl (fun acc p => applyIntro p acc) l = l := by
  induction pats with
  | nil => rfl
  | cons p rest ih =>
      have hp : matchIntro p l = none := by
        have h' := h p (by simp)
        cases hm : matchIntro p l with
        | none => rfl
        | some r => simp [matchesAtStart, hm] at h'
      rw [List.foldl_cons]
      have : applyIntro p l = l := by rw [applyIntro, hp]
      rw [this]
      exact ih fun q hq => h q (by simp [hq])

/-- C6 counterexample: the cleaner is not idempotent — stripping the
`Summary:` phrase exposes the earlier-listed `Here's a summary of the
text:` phrase, which only the second application removes. -/
theorem cleanSummary_not_idempotent_counterexample :
    cleanSummary "Summary: Here's a summary of the text: X"
        = "Here's a summary of the text: X" ∧
    cleanSummary (cleanSummary "Summary: Here's a summary of the text: X") = "X" ∧
    cleanSummary (cleanSummary "Summary: Here's a summary of the text: X") ≠
      cleanSummary "Summary: Here's a summary of the text: X" :=
  ⟨by decide, by decide, by decide⟩

/-- C6 amended: the cleaner applies the fixed ordered pattern list once,
each pattern stripping case-insensitively when anchored at the start of the
current text; when no listed phrase matches the trimmed text it returns the
trimmed text unchanged.  It is not idempotent in general, because stripping
a later-listed phrase can expose an earlier-listed one. -/
theorem cleanSummary_noMatch_unchanged (s : String)
    (h : ∀ pat ∈ introPatterns, matchesAtStart pat (trimChars s.data) = false) :
    cleanSummary s = jsTrim s := by
  rw [cleanSummary, foldl_applyIntro_no_match _ _ h, trimChars_idem, jsTrim]

/-- C6 amended witness: already-clean text is only trimmed. -/
theorem cleanSummary_noMatch_unchanged_witness :
    cleanSummary "  hello world " = jsTrim "  hello world " :=
  cleanSummary_noMatch_unchanged _ (by decide)

/-- C7 counterexample: on a payload with two matches of each field pattern
and `requestedCount = 1`, Stage 2 reassembles 2 records, not
`min(requestedCount, 2, 2, 2) = 1` — the requested count does not bound the
reassembly (the truncation to the requested count happens later, in
validation). -/
theorem stage2_ignores_requestedCount_counterexample :
    (extractQuestionTexts recoveryPayloadExample.data).length = 2 ∧
    (extractOptionLists recoveryPayloadExample.data).length = 2 ∧
    (extractCorrectIndices recoveryPayloadExample.data).length = 2 ∧
    (stage2Records recoveryPayloadExample).length = 2 ∧
    (stage2Records recoveryPayloadExample).length ≠ Nat.min 1 (Nat.min 2 (Nat.min 2 2)) := by
  refine ⟨by decide, by decide, by decide, by decide, by decide⟩

/-- C7 amended: the number of records Stage 2 reassembles equals
`min(question-match count, options-match count, correctIndex-match count)`
— the requested count plays no role at this stage — with surplus field
matches beyond this bound discarded; Stage 2 fails (and the parser
surfaces the malformed-payload error) exactly when this count is zero. -/
theorem stage2_count (payload : String) :
    (stage2Records payload).length =
      min (extractQuestionTexts payload.data).length
        (min (extractOptionLists payload.data).length
          (extractCorrectIndices payload.data).length) ∧
    (stage2 payload = .error "Fallback parsing also failed" ↔ stage2Records payload = []) ∧
    (0 < (stage2Records payload).length → stage2 payload = .ok (stage2Records payload)) := by
  refine ⟨?_, ?_, ?_⟩
  · simp [stage2Records, List.length_zip]
  · rcases Nat.eq_zero_or_pos (stage2Records payload).length with h | h
    · have hnil : stage2Records payload = [] := List.length_eq_zero.mp h
      simp [stage2, hnil]
    · have hne : stage2Records payload ≠ [] := List.length_pos.mp h
      simp [stage2, h, hne]
  · intro h
    simp [stage2, h]

/-- C7 amended witness: one match of each field pattern yields one record
and Stage 2 succeeds. -/
theorem stage2_count_witness :
    stage2 "\"question\": \"Why?\", \"options\": [\"A\", \"B\"], \"correctIndex\": 0"
      = .ok (stage2Records
          "\"question\": \"Why?\", \"options\": [\"A\", \"B\"], \"correctIndex\": 0") :=
  (stage2_count _).2.2 (by decide)

/-- C8 counterexample: a content of 2501 characters exceeds the claimed
2500-character ceiling, yet the code leaves it unchanged and appends no
marker — the actual ceiling is 3000. -/
theorem truncateForSummary_2501_counterexample :
    truncateForSummary (String.mk (List.replicate 2501 'a'))
        = String.mk (List.replicate 2501 'a') ∧
    (String.mk (List.replicate 2501 'a')).length = 2501 := by
  have h : (String.mk (List.replicate 2501 'a')).length = 2501 :=
    List.length_replicate 2501 'a'
  constructor
  · rw [truncateForSummary, if_neg]
    omega
  · exact h

/-- C8 amended: Summarize truncates its content to a fixed 3000-character
ceiling (not 2500) before prompting, appending the `"..."` marker exactly
once iff the content exceeds 3000 characters (the result then always has
3003 characters); content of at most 3000 characters is passed through
unchanged. -/
theorem truncateForSummary_spec (s : String) :
    (s.length ≤ 3000 → truncateForSummary s = s) ∧
    (3000 < s.length →
      truncateForSummary s = String.mk (s.data.take 3000) ++ "..." ∧
      (truncateForSummary s).length = 3003) := by
  constructor
  · intro h
    rw [truncateForSummary, if_neg]
    omega
  · intro h
    have heq : truncateForSummary s = String.mk (s.data.take 3000) ++ "..." := by
      rw [truncateForSummary, if_pos (by omega)]
    refine ⟨heq, ?_⟩
    rw [heq, String.length_append]
    have h1 : (String.mk (s.data.take 3000)).length = min 3000 s.data.length :=
      List.length_take 3000 s.data
    have h2 : s.length = s.data.length := rfl
    have h3 : ("..." : String).length = 3 := rfl
    omega

/-- C8 amended witness: a short content is unchanged; a 3001-character
content is cut at 3000 with the marker appended. -/
theorem truncateForSummary_spec_witness :
    truncateForSummary "abc" = "abc" ∧
    truncateForSummary (String.mk (List.replicate 3001 'a'))
      = String.mk ((List.replicate 3001 'a').take 3000) ++ "..." :=
  ⟨(truncateForSummary_spec "abc").1 (by decide),
   ((truncateForSummary_spec (String.mk (List.replicate 3001 'a'))).2
      (by
        have h : (String.mk (List.replicate 3001 'a')).length = 3001 :=
          List.length_replicate 3001 'a'
        omega)).1⟩

/-- C9 counterexample: with `count = 25` (outside the claimed 1–20 range)
and non-empty content, the input phase succeeds and the providers are all
contacted — the operation neither fails with an invalid-input error nor
skips the provider calls. -/
theorem generateQuiz_count25_counterexample :
    generateQuizPhase1 ⟨none, some "some study text", 25, "medium"⟩ true
        = .ok "some study text" ∧
    generateQuizAttempts ⟨none, some "some study text", 25, "medium"⟩ true
        (fun _ => .resp 429 none "rate limited") = [0, 1, 2, 3, 4] :=
  ⟨by rfl, by decide⟩

/-- C9 amended: GenerateQuiz performs no range check on `count` at all: the
input phase and the set of provider attempts are independent of `count`
(and of `difficulty`), and whenever source text is present and the API key
is configured, the providers are contacted regardless of `count`.  The only
pre-provider failures are missing source text and missing API key. -/
theorem generateQuiz_noCountCheck (summary content : Option String) (count count' : Int)
    (d d' : String) (key : Bool) (resp : Nat → Attempt) :
    generateQuizPhase1 ⟨summary, content, count, d⟩ key
      = generateQuizPhase1 ⟨summary, content, count', d'⟩ key ∧
    generateQuizAttempts ⟨summary, content, count, d⟩ key resp
      = generateQuizAttempts ⟨summary, content, count', d'⟩ key resp ∧
    (jsTruthy (jsOr content summary) = true → key = true →
      generateQuizAttempts ⟨summary, content, count, d⟩ key resp
        = (callAI freeModels resp).2) := by
  refine ⟨rfl, rfl, ?_⟩
  intro ht hk
  subst hk
  rw [generateQuizAttempts, generateQuizPhase1]
  simp [quizSourceText, ht]

/-- C9 amended witness: with content present, a configured key and
`count = 25`, all providers are contacted. -/
theorem generateQuiz_noCountCheck_witness :
    generateQuizAttempts ⟨none, some "text", 25, "easy"⟩ true
        (fun _ => .resp 503 none "down")
      = (callAI freeModels (fun _ => .resp 503 none "down")).2 :=
  (generateQuiz_noCountCheck none (some "text") 25 25 "easy" "easy" true
    (fun _ => .resp 503 none "down")).2.2 (by decide) rfl

/-- C10: the quiz handler takes its source text from `content` when that
field is non-empty, falls back to `summary` when `content` is absent or
empty, and returns the "No content or summary provided" error exactly when
both fields are absent or empty. -/
theorem quizSourceText_selection (content summary : Option String) (count : Int)
    (d : String) (key : Bool) :
    (∀ s, content = some s → ¬s = "" →
      quizSourceText ⟨summary, content, count, d⟩ = some s) ∧
    (jsTruthy content = false → quizSourceText ⟨summary, content, count, d⟩ = summary) ∧
    (generateQuizPhase1 ⟨summary, content, count, d⟩ key
        = .error "No content or summary provided"
      ↔ jsTruthy content = false ∧ jsTruthy summary = false) := by
  refine ⟨?_, ?_, ?_⟩
  · intro s hs hne
    rw [quizSourceText, jsOr]
    subst hs
    simp [jsTruthy, hne]
  · intro h
    rw [quizSourceText, jsOr]
    simp [h]
  · cases hc : jsTruthy content <;> cases hs : jsTruthy summary <;>
      simp [generateQuizPhase1, quizSourceText, jsOr, hc, hs] <;>
      cases key <;> simp

/-- C10 witness: non-empty `content` wins over `summary`; two empty fields
produce the no-input error. -/
theorem quizSourceText_selection_witness :
    quizSourceText ⟨some "sum", some "text", 5, "medium"⟩ = some "text" ∧
    generateQuizPhase1 ⟨some "", some "", 5, "medium"⟩ true
      = .error "No content or summary provided" :=
  ⟨(quizSourceText_selection (some "text") (some "sum") 5 "medium" true).1 "text" rfl
      (by decide),
   ((quizSourceText_selection (some "") (some "") 5 "medium" true).2.2).mpr
      ⟨by decide, by decide⟩⟩

end StudyTutor
